import Mathlib

/-
Verification of the turtle-adventure game simulation core
(`turtle_adventure.py`), as a shallow embedding in Lean 4.

Positions and speeds are Python floats; we model them as real numbers,
taking the math-library primitives (`sqrt`, `sin`, `cos`, `atan2`) as
their exact real counterparts.  Screen dimensions are Python ints and are
modelled as naturals; Python `//` on nonnegative ints is Nat division.

Turtle moves: `setheading(towards(wx, wy)); forward(s)` advances the
position by `s * (cos t, sin t)` with `t = atan2(wy - y, wx - x)`.  For a
nonzero separation `d`, `(cos t, sin t) = ((wx - x)/d, (wy - y)/d)`; for
zero separation `atan2 0 0 = 0`, so the step is `(s, 0)`.  The embeddings
below use these identities directly, which avoids mentioning `atan2`
while computing the exact same points.
-/

/-- Error type named by the specification for rejected constructor
arguments.  The Python source never raises it. -/
inductive InvalidConfiguration where
  | mk : InvalidConfiguration
deriving DecidableEq

/-- `Player.__init__` (turtle_adventure.py lines 135-138): stores the
given speed unconditionally; there is no validation, so construction
always succeeds.  The `Except` layer models Python exception behaviour
for the construction call. -/
def playerInit (speed : ℝ) : Except InvalidConfiguration ℝ :=
  Except.ok speed

/-- `Enemy.__init__` (lines 205-208): stores size and color
unconditionally; no validation, construction always succeeds. -/
def enemyInit (size : ℝ) (color : String) :
    Except InvalidConfiguration (ℝ × String) :=
  Except.ok (size, color)

/-- Tags for the game elements that `TurtleAdventureGame` registers. -/
inductive ElemTag where
  | waypoint : ElemTag
  | home : ElemTag
  | player : ElemTag
  | randomE : ElemTag
  | chasingE : ElemTag
  | fencingE : ElemTag
  | frontGateE : ElemTag
deriving DecidableEq

/-- The two element collections owned by `TurtleAdventureGame`:
the generic `add_element` registry inherited from `Game`, and the
dedicated `enemies` list (line 485). -/
structure GameCollections where
  elements : List ElemTag
  enemies : List ElemTag
deriving DecidableEq

/-- `Game.add_element`: registers an element in the generic registry
only. -/
def addElement (s : GameCollections) (e : ElemTag) : GameCollections :=
  { s with elements := s.elements ++ [e] }

/-- `TurtleAdventureGame.add_enemy` (lines 509-514): appends to the
dedicated `enemies` list and also registers the element.  Defined in the
source but called from nowhere in the program. -/
def addEnemy (s : GameCollections) (e : ElemTag) : GameCollections :=
  { s with enemies := s.enemies ++ [e],
           elements := s.elements ++ [e] }

/-- `TurtleAdventureGame.init_game` collection effect: `enemies` starts
as the empty list (line 485) and waypoint, home and player are
registered through `add_element` (lines 495-500). -/
def initCollections : GameCollections :=
  { elements := [ElemTag.waypoint, ElemTag.home, ElemTag.player],
    enemies := [] }

/-- `EnemyGenerator.create_enemy` (lines 444-469) collection effect:
the four enemies are registered through the generic `add_element`
call only. -/
def createEnemy (s : GameCollections) : GameCollections :=
  addElement (addElement (addElement (addElement s ElemTag.randomE)
    ElemTag.chasingE) ElemTag.fencingE) ElemTag.frontGateE

/-- Collection states the running program can reach: the initial state,
and the effect of each scheduled `create_enemy` trigger.  Per-tick
updates never touch either collection, and `add_enemy` has no call site
in the program, so neither contributes a step. -/
inductive ReachableCollections : GameCollections → Prop where
  | init : ReachableCollections initCollections
  | spawn (s : GameCollections) (h : ReachableCollections s) :
      ReachableCollections (createEnemy s)

noncomputable section

open Classical

/-- Euclidean distance between two points, as the source computes it
with `math.sqrt` / `turtle.distance`. -/
def sdist (x1 y1 x2 y2 : ℝ) : ℝ :=
  Real.sqrt ((x1 - x2) ^ 2 + (y1 - y2) ^ 2)

/-- `Home.contains` (lines 121-127): inclusive axis-aligned square
test. -/
def homeContains (hx hy size x y : ℝ) : Prop :=
  (hx - size / 2 ≤ x ∧ x ≤ hx + size / 2) ∧
    (hy - size / 2 ≤ y ∧ y ≤ hy + size / 2)

/-- `Enemy.hits_player` (lines 224-232): strict axis-aligned square
test of the player point against the box of half-width `size / 2`
centred on the enemy. -/
def hitsPlayer (ex ey size px py : ℝ) : Prop :=
  (ex - size / 2 < px ∧ px < ex + size / 2) ∧
    (ey - size / 2 < py ∧ py < ey + size / 2)

/-- Player state: position, waypoint-active flag, and a latch recording
whether `game_over_win` has been signalled. -/
structure PState where
  x : ℝ
  y : ℝ
  active : Bool
  won : Bool

/-- `Player.update` (lines 163-173) with waypoint `(wx, wy)` and home
`(hx, hy, hsize)`.  The win check comes first and is not followed by a
`return`, so the movement code still runs; if the waypoint is active the
player steps `speed` units toward it, and the waypoint is deactivated
when the distance measured after the step is below `speed`. -/
def playerUpdate (hx hy hsize wx wy speed : ℝ) (s : PState) : PState :=
  let wonStep : Bool := s.won || decide (homeContains hx hy hsize s.x s.y)
  if s.active then
    let d := sdist s.x s.y wx wy
    let px := if d = 0 then s.x + speed else s.x + speed * (wx - s.x) / d
    let py := if d = 0 then s.y else s.y + speed * (wy - s.y) / d
    ⟨px, py, decide ¬(sdist px py wx wy < speed), wonStep⟩
  else
    ⟨s.x, s.y, s.active, wonStep⟩

/-- The scenario of spec section 8: Home at `(700, 300)` with size 20,
waypoint activated at `(700, 300)`, player speed 5, player starting at
`(50, 300)`; `c4Iter n` is the player state after `n` ticks. -/
def c4Iter (n : ℕ) : PState :=
  (playerUpdate 700 300 20 700 300 5)^[n] ⟨50, 300, true, false⟩

/-- Result of one enemy update: the enemy position afterwards and
whether `game_over_lose` was signalled. -/
structure EnemyStep where
  x : ℝ
  y : ℝ
  lose : Bool

/-- `ChasingEnemy.update` (lines 250-266): if the Euclidean distance to
the player is below `size`, signal lose and return; otherwise step 3
units along `atan2(py - ey, px - ex)`.  For `d ≠ 0` the cosine/sine of
that angle are `(px - ex)/d` and `(py - ey)/d`; for `d = 0` the angle is
`atan2 0 0 = 0`, giving cosine 1 and sine 0. -/
def chasingUpdate (size ex ey px py : ℝ) : EnemyStep :=
  let d := sdist px py ex ey
  if d < size then ⟨ex, ey, true⟩
  else
    let c := if d = 0 then 1 else (px - ex) / d
    let sn := if d = 0 then 0 else (py - ey) / d
    ⟨ex + 3 * c, ey + 3 * sn, false⟩

/-- State of the angle-driven enemies (`RandomEnemy`,
`FrontGateEnermy`): position plus the stored angle. -/
structure RState where
  x : ℝ
  y : ℝ
  angle : ℝ

/-- `RandomEnemy.__init__` (lines 337-340) stores the literal 45 as the
angle, later consumed by `math.cos` / `math.sin`, hence radians. -/
def randomInitAngle : ℝ := 45

/-- `RandomEnemy.update` (lines 348-365): on a hit, signal lose and
stop; otherwise move 3 units along the stored angle, then reflect the
angle to `π - angle` when the new x lies outside `[0, screen_width]`,
and then negate the (possibly already reflected) angle when the new y
lies outside `[0, screen_height]`. -/
def randomUpdate (w h : ℕ) (size px py : ℝ) (s : RState) :
    RState × Bool :=
  if hitsPlayer s.x s.y size px py then (s, true)
  else
    let nx := s.x + 3 * Real.cos s.angle
    let ny := s.y + 3 * Real.sin s.angle
    let a1 := if nx < 0 ∨ nx > (w : ℝ) then Real.pi - s.angle else s.angle
    let a2 := if ny < 0 ∨ ny > (h : ℝ) then -a1 else a1
    (⟨nx, ny, a2⟩, false)

/-- `FrontGateEnermy.update` (lines 388-405): same motion and
reflection scheme as `RandomEnemy`, but the x reflection triggers when
`x < screen_width - screen_width // 4` or `x > screen_width`, and the y
reflection when `y < screen_height // 3` or
`y > screen_height - screen_height // 3`; `//` is integer division on
the int screen dimensions. -/
def gateUpdate (w h : ℕ) (size px py : ℝ) (s : RState) :
    RState × Bool :=
  if hitsPlayer s.x s.y size px py then (s, true)
  else
    let nx := s.x + 3 * Real.cos s.angle
    let ny := s.y + 3 * Real.sin s.angle
    let a1 := if nx < ((w - w / 4 : ℕ) : ℝ) ∨ nx > (w : ℝ) then
        Real.pi - s.angle
      else s.angle
    let a2 := if ny < ((h / 3 : ℕ) : ℝ) ∨ ny > ((h - h / 3 : ℕ) : ℝ) then
        -a1
      else a1
    (⟨nx, ny, a2⟩, false)

/-- `FencingEnemy.__init__` (lines 281-291): the four patrol corners,
computed once from the position Home has at construction time, offset
by `cn = 100 / 2 = 50` on each axis, in the source order
`[(hx-50, hy-50), (hx+50, hy-50), (hx+50, hy+50), (hx-50, hy+50)]`. -/
def fencingCorners (hx hy : ℝ) : List (ℝ × ℝ) :=
  [(hx - 50, hy - 50), (hx + 50, hy - 50),
   (hx + 50, hy + 50), (hx - 50, hy + 50)]

/-- `FencingEnemy` state: position plus the patrol phase counter
`__step`. -/
structure FState where
  x : ℝ
  y : ℝ
  phase : ℕ

/-- `FencingEnemy.update` (lines 299-322), with `(hx, hy)` the Home
position captured at construction: on a hit, signal lose and stop;
otherwise phase 0 moves x by +2 and advances when reaching
`corner[1].x`, phase 1 moves y by +2 and advances at `corner[2].y`,
phase 2 moves x by -2 and advances at `corner[3].x`, phase 3 moves y by
-2 and wraps to phase 0 at `corner[0].y`. -/
def fencingUpdate (hx hy size px py : ℝ) (s : FState) :
    FState × Bool :=
  if hitsPlayer s.x s.y size px py then (s, true)
  else if s.phase = 0 then
    let nx := s.x + 2
    (⟨nx, s.y,
      if nx ≥ ((fencingCorners hx hy).getD 1 (0, 0)).1 then s.phase + 1
      else s.phase⟩, false)
  else if s.phase = 1 then
    let ny := s.y + 2
    (⟨s.x, ny,
      if ny ≥ ((fencingCorners hx hy).getD 2 (0, 0)).2 then s.phase + 1
      else s.phase⟩, false)
  else if s.phase = 2 then
    let nx := s.x - 2
    (⟨nx, s.y,
      if nx ≤ ((fencingCorners hx hy).getD 3 (0, 0)).1 then s.phase + 1
      else s.phase⟩, false)
  else if s.phase = 3 then
    let ny := s.y - 2
    (⟨s.x, ny,
      if ny ≤ ((fencingCorners hx hy).getD 0 (0, 0)).2 then 0
      else s.phase⟩, false)
  else (s, false)

/-! Helper lemmas about the embedded geometry. -/

theorem sqrt_of_sq (a b : ℝ) (hb : 0 ≤ b) (hab : b ^ 2 = a) :
    Real.sqrt a = b := by
  rw [← hab, Real.sqrt_sq hb]

theorem sqrt_scale (c a b : ℝ) :
    Real.sqrt ((c * a) ^ 2 + (c * b) ^ 2) =
      |c| * Real.sqrt (a ^ 2 + b ^ 2) := by
  rw [show (c * a) ^ 2 + (c * b) ^ 2 = c ^ 2 * (a ^ 2 + b ^ 2) by ring,
    Real.sqrt_mul (sq_nonneg c), Real.sqrt_sq_eq_abs]

theorem sdist_nonneg (x y wx wy : ℝ) : 0 ≤ sdist x y wx wy :=
  Real.sqrt_nonneg _

theorem sdist_eq_zero (x y wx wy : ℝ) (h : sdist x y wx wy = 0) :
    x = wx ∧ y = wy := by
  have hsum : (x - wx) ^ 2 + (y - wy) ^ 2 ≤ 0 := Real.sqrt_eq_zero'.mp h
  constructor
  · have : (x - wx) ^ 2 = 0 := by nlinarith [sq_nonneg (x - wx), sq_nonneg (y - wy)]
    have := sq_eq_zero_iff.mp this
    linarith [this]
  · have : (y - wy) ^ 2 = 0 := by nlinarith [sq_nonneg (x - wx), sq_nonneg (y - wy)]
    have := sq_eq_zero_iff.mp this
    linarith [this]

theorem sdist_after_step (x y wx wy speed : ℝ) :
    sdist
      (if sdist x y wx wy = 0 then x + speed
       else x + speed * (wx - x) / sdist x y wx wy)
      (if sdist x y wx wy = 0 then y
       else y + speed * (wy - y) / sdist x y wx wy)
      wx wy = |sdist x y wx wy - speed| := by
  by_cases hd : sdist x y wx wy = 0
  · obtain ⟨hx, hy⟩ := sdist_eq_zero x y wx wy hd
    rw [if_pos hd, if_pos hd, hd, hx, hy]
    unfold sdist
    rw [show (wx + speed - wx) ^ 2 + (wy - wy) ^ 2 = speed ^ 2 by ring,
      Real.sqrt_sq_eq_abs, zero_sub, abs_neg]
  · rw [if_neg hd, if_neg hd]
    have hdpos : 0 < sdist x y wx wy :=
      lt_of_le_of_ne (sdist_nonneg x y wx wy) (Ne.symm hd)
    set d := sdist x y wx wy with hdd
    have h1 : x + speed * (wx - x) / d - wx = (d - speed) / d * (x - wx) := by
      field_simp
      ring
    have h2 : y + speed * (wy - y) / d - wy = (d - speed) / d * (y - wy) := by
      field_simp
      ring
    unfold sdist
    rw [h1, h2, sqrt_scale]
    have hsd : Real.sqrt ((x - wx) ^ 2 + (y - wy) ^ 2) = d := by
      rw [hdd]
      rfl
    rw [hsd, abs_div, abs_of_pos hdpos, div_mul_cancel₀ _ (ne_of_gt hdpos)]

theorem sdist_step_length (x y wx wy speed : ℝ) :
    sdist
      (if sdist x y wx wy = 0 then x + speed
       else x + speed * (wx - x) / sdist x y wx wy)
      (if sdist x y wx wy = 0 then y
       else y + speed * (wy - y) / sdist x y wx wy)
      x y = |speed| := by
  by_cases hd : sdist x y wx wy = 0
  · rw [if_pos hd, if_pos hd]
    unfold sdist
    rw [show (x + speed - x) ^ 2 + (y - y) ^ 2 = speed ^ 2 by ring,
      Real.sqrt_sq_eq_abs]
  · rw [if_neg hd, if_neg hd]
    have hdpos : 0 < sdist x y wx wy :=
      lt_of_le_of_ne (sdist_nonneg x y wx wy) (Ne.symm hd)
    set d := sdist x y wx wy with hdd
    have h1 : x + speed * (wx - x) / d - x = speed / d * (wx - x) := by
      field_simp
      ring
    have h2 : y + speed * (wy - y) / d - y = speed / d * (wy - y) := by
      field_simp
      ring
    unfold sdist
    rw [h1, h2, sqrt_scale]
    have hsd : Real.sqrt ((wx - x) ^ 2 + (wy - y) ^ 2) = d := by
      rw [hdd]
      unfold sdist
      congr 1
      ring
    rw [hsd, abs_div, abs_of_pos hdpos, div_mul_cancel₀ _ (ne_of_gt hdpos)]

/-- C3 counterexample: constructing a Player with speed `-1` and an
Enemy with size `-1` both succeed; no `InvalidConfiguration` failure
occurs, refuting the claim that negative inputs are rejected at
construction. -/
theorem construction_negative_ok :
    (playerInit (-1)).isOk = true ∧ (enemyInit (-1) "red").isOk = true :=
  ⟨rfl, rfl⟩

/-- C3 (amended): `Player.__init__` and `Enemy.__init__` perform no
validation at all; construction always succeeds and stores the given
speed, size and color unchanged, for negative inputs as well. -/
theorem construction_never_fails (speed size : ℝ) (color : String) :
    playerInit speed = Except.ok speed ∧
      enemyInit size color = Except.ok (size, color) :=
  ⟨rfl, rfl⟩

/-- C10: every collection state the program can reach keeps the
dedicated `enemies` list equal to the empty list it was created with
(`add_enemy` has no call site), while `create_enemy` registers exactly
the four new enemies through the generic `add_element` registry. -/
theorem enemies_list_stays_empty (s : GameCollections)
    (h : ReachableCollections s) :
    s.enemies = [] ∧
      (createEnemy s).elements = s.elements ++
        [ElemTag.randomE, ElemTag.chasingE, ElemTag.fencingE,
         ElemTag.frontGateE] ∧
      (createEnemy s).enemies = s.enemies := by
  refine ⟨?_, ?_, rfl⟩
  · induction h with
    | init => rfl
    | spawn t ht iht => exact iht
  · simp [createEnemy, addElement]

/-- C10 witness: the state after the scheduled spawn trigger has an
empty `enemies` list and the four enemies sit in the generic
registry. -/
theorem enemies_list_stays_empty_app :
    (createEnemy initCollections).enemies = [] ∧
      (createEnemy (createEnemy initCollections)).elements =
        (createEnemy initCollections).elements ++
          [ElemTag.randomE, ElemTag.chasingE, ElemTag.fencingE,
           ElemTag.frontGateE] ∧
      (createEnemy (createEnemy initCollections)).enemies =
        (createEnemy initCollections).enemies :=
  enemies_list_stays_empty (createEnemy initCollections)
    (ReachableCollections.spawn initCollections ReachableCollections.init)

/-- C5: `hits_player` holds exactly when the player point is strictly
inside the axis-aligned square of half-width `size / 2` centred on the
enemy, and a player exactly on the box boundary is never counted as a
hit.  The test is the one shared by FencingEnemy, RandomEnemy and
FrontGateEnermy. -/
theorem hitsPlayer_strict_box (ex ey size px py : ℝ) :
    (hitsPlayer ex ey size px py ↔
      |px - ex| < size / 2 ∧ |py - ey| < size / 2) ∧
    (|px - ex| = size / 2 ∨ |py - ey| = size / 2 →
      ¬ hitsPlayer ex ey size px py) := by
  constructor
  · unfold hitsPlayer
    rw [abs_sub_lt_iff, abs_sub_lt_iff]
    constructor
    · rintro ⟨⟨a, b⟩, c, d⟩
      exact ⟨⟨by linarith, by linarith⟩, by linarith, by linarith⟩
    · rintro ⟨⟨a, b⟩, c, d⟩
      exact ⟨⟨by linarith, by linarith⟩, by linarith, by linarith⟩
  · intro hb hh
    unfold hitsPlayer at hh
    obtain ⟨⟨a, b⟩, c, d⟩ := hh
    rcases hb with hb | hb
    · have h1 : |px - ex| < size / 2 := abs_sub_lt_iff.mpr ⟨by linarith, by linarith⟩
      exact absurd hb (ne_of_lt h1)
    · have h1 : |py - ey| < size / 2 := abs_sub_lt_iff.mpr ⟨by linarith, by linarith⟩
      exact absurd hb (ne_of_lt h1)

/-- C5 witness: a player exactly on the boundary of the box (x offset
exactly `size / 2 = 10`) is not hit. -/
theorem hitsPlayer_strict_box_app : ¬ hitsPlayer 0 0 20 10 0 :=
  (hitsPlayer_strict_box 0 0 20 10 0).2 (Or.inl (by norm_num))

/-- C1 counterexample: with Home at `(0, 0)` of size 20, the player at
`(0, 0)` (inside Home) and the waypoint active at `(10, 0)` with speed
5, `Player.update` signals the win but still moves the player: the new
x coordinate is not 0.  The claim says the position is unchanged. -/
theorem playerUpdate_win_moves_example :
    homeContains 0 0 20 0 0 ∧
      (playerUpdate 0 0 20 10 0 5 ⟨0, 0, true, false⟩).won = true ∧
      (playerUpdate 0 0 20 10 0 5 ⟨0, 0, true, false⟩).x ≠ 0 := by
  have hd : sdist 0 0 10 0 = 10 := by
    unfold sdist
    rw [show ((0:ℝ) - 10) ^ 2 + ((0:ℝ) - 0) ^ 2 = 10 ^ 2 by norm_num,
      Real.sqrt_sq (by norm_num)]
  have hc : homeContains 0 0 20 0 0 := by
    unfold homeContains
    norm_num
  refine ⟨hc, ?_, ?_⟩
  · simp [playerUpdate, hc]
  · simp only [playerUpdate]
    simp only [hd]
    norm_num

/-- C1 (amended): when Home contains the player position at the start
of `Player.update`, the win signal is emitted, but no `return` follows
it in the source, so the movement code still runs: with the waypoint
active the player moves a full `|speed|` step that tick. -/
theorem playerUpdate_win_still_moves (hx hy hsize wx wy speed : ℝ)
    (s : PState) (hc : homeContains hx hy hsize s.x s.y)
    (ha : s.active = true) :
    (playerUpdate hx hy hsize wx wy speed s).won = true ∧
      sdist (playerUpdate hx hy hsize wx wy speed s).x
        (playerUpdate hx hy hsize wx wy speed s).y s.x s.y = |speed| := by
  unfold playerUpdate
  rw [ha]
  constructor
  · simp [hc]
  · simp only [if_pos rfl]
    exact sdist_step_length s.x s.y wx wy speed

/-- C1 witness: the amended statement applied at the counterexample
configuration. -/
theorem playerUpdate_win_still_moves_app :
    (playerUpdate 0 0 20 10 0 5 ⟨0, 0, true, false⟩).won = true ∧
      sdist (playerUpdate 0 0 20 10 0 5 ⟨0, 0, true, false⟩).x
        (playerUpdate 0 0 20 10 0 5 ⟨0, 0, true, false⟩).y 0 0 = |(5:ℝ)| :=
  playerUpdate_win_still_moves 0 0 20 10 0 5 ⟨0, 0, true, false⟩
    (by unfold homeContains; norm_num) rfl

/-- C2 counterexample: player at `(0, 0)`, waypoint active at `(7, 0)`,
speed 5 and Home far away.  The before-move distance is 7, which is not
below the speed, so the claim says the waypoint stays active; the code
moves the player to `(5, 0)`, measures the remaining distance 2 after
the move, and deactivates the waypoint. -/
theorem playerUpdate_deactivation_example :
    ¬ (sdist 0 0 7 0 < 5) ∧
      (playerUpdate 1000 1000 20 7 0 5 ⟨0, 0, true, false⟩).active = false := by
  have hd : sdist 0 0 7 0 = 7 := by
    unfold sdist
    rw [show ((0:ℝ) - 7) ^ 2 + ((0:ℝ) - 0) ^ 2 = 7 ^ 2 by norm_num,
      Real.sqrt_sq (by norm_num)]
  constructor
  · rw [hd]
    norm_num
  · simp only [playerUpdate, if_pos rfl]
    rw [sdist_after_step 0 0 7 0 5, hd]
    exact decide_eq_false (by norm_num)

/-- C2 (amended): with the waypoint active, `Player.update` deactivates
it exactly when the remaining distance measured after the `speed` step
is below `speed`; since the step runs straight at the waypoint, that
post-move distance equals `|d - speed|` for the before-move distance
`d`, not `d` itself as the claim states. -/
theorem playerUpdate_deactivation_iff (hx hy hsize wx wy speed : ℝ)
    (s : PState) (ha : s.active = true) :
    ((playerUpdate hx hy hsize wx wy speed s).active = false ↔
      |sdist s.x s.y wx wy - speed| < speed) := by
  unfold playerUpdate
  rw [ha]
  simp only [if_pos rfl]
  rw [sdist_after_step s.x s.y wx wy speed]
  simp [decide_eq_false_iff_not]

/-- C2 witness: the amended statement applied at the counterexample
configuration. -/
theorem playerUpdate_deactivation_iff_app :
    ((playerUpdate 1000 1000 20 7 0 5 ⟨0, 0, true, false⟩).active = false ↔
      |sdist 0 0 7 0 - 5| < 5) :=
  playerUpdate_deactivation_iff 1000 1000 20 7 0 5 ⟨0, 0, true, false⟩ rfl

/-- One tick of the C4 scenario while the player is still at most at
x = 690 on the straight line y = 300: the player advances 5 units in x,
the waypoint stays active, and the win latch picks up exactly whether
the tick started with x already inside Home (x at least 690). -/
theorem c4_step (x : ℝ) (b : Bool) (h0 : x ≤ 690) :
    playerUpdate 700 300 20 700 300 5 ⟨x, 300, true, b⟩ =
      ⟨x + 5, 300, true, b || decide (690 ≤ x)⟩ := by
  have hd : sdist x 300 700 300 = 700 - x := by
    unfold sdist
    rw [show (x - 700) ^ 2 + ((300:ℝ) - 300) ^ 2 = (700 - x) ^ 2 by ring,
      Real.sqrt_sq (by linarith)]
  have hne : sdist x 300 700 300 ≠ 0 := by
    rw [hd]
    intro hh
    linarith
  have hd2 : sdist (x + 5 * (700 - x) / (700 - x)) (300 + 5 * (300 - 300) / (700 - x))
      700 300 = 695 - x := by
    have h7 : (700:ℝ) - x ≠ 0 := by intro hh; linarith
    rw [show x + 5 * (700 - x) / (700 - x) = x + 5 by field_simp,
      show (300:ℝ) + 5 * (300 - 300) / (700 - x) = 300 by norm_num]
    unfold sdist
    rw [show (x + 5 - 700) ^ 2 + ((300:ℝ) - 300) ^ 2 = (695 - x) ^ 2 by ring,
      Real.sqrt_sq (by linarith)]
  simp only [playerUpdate, if_pos rfl, if_true]
  rw [if_neg hne, if_neg hne, hd, hd2]
  have h7 : (700:ℝ) - x ≠ 0 := by intro hh; linarith
  simp only [PState.mk.injEq]
  refine ⟨by field_simp, by norm_num, ?_, ?_⟩
  · exact decide_eq_true (not_lt.mpr (by linarith))
  · congr 1
    rw [decide_eq_decide]
    unfold homeContains
    constructor
    · rintro ⟨⟨h1, _⟩, _⟩
      linarith
    · intro hx
      exact ⟨⟨by linarith, by linarith⟩, by norm_num⟩

/-- Closed form for the C4 scenario: for the first 128 ticks the player
sits at `(50 + 5 n, 300)` with the waypoint active and no win yet. -/
theorem c4_closed_form : ∀ n : ℕ, n ≤ 128 →
    c4Iter n = ⟨50 + 5 * n, 300, true, false⟩ := by
  intro n
  induction n with
  | zero =>
    intro _
    rw [c4Iter]
    norm_num
  | succ k ih =>
    intro h
    have hk : k ≤ 128 := Nat.le_of_succ_le h
    have hk127 : k ≤ 127 := Nat.lt_succ_iff.mp h
    have hcast : (k:ℝ) ≤ 127 := by exact_mod_cast hk127
    rw [c4Iter, Function.iterate_succ_apply', ← c4Iter, ih hk,
      c4_step (50 + 5 * k) false (by linarith)]
    have hwon : decide ((690:ℝ) ≤ 50 + 5 * k) = false :=
      decide_eq_false (not_le.mpr (by linarith))
    rw [hwon]
    simp only [PState.mk.injEq, Bool.or_false, and_true, true_and]
    push_cast
    ring

/-- State of the C4 scenario after tick 129: the win latch has fired
(the tick began at `(690, 300)`, which Home contains inclusively) and
the player has moved on to `(695, 300)` with the waypoint still
active. -/
theorem c4_tick129 : c4Iter 129 = ⟨695, 300, true, true⟩ := by
  have h128 : c4Iter 128 = ⟨690, 300, true, false⟩ := by
    have := c4_closed_form 128 le_rfl
    rw [this]
    norm_num
  rw [show (129:ℕ) = 128 + 1 from rfl, c4Iter, Function.iterate_succ_apply',
    ← c4Iter, h128, c4_step 690 false (by norm_num)]
  have : decide ((690:ℝ) ≤ 690) = true := decide_eq_true le_rfl
  rw [this]
  norm_num

/-- C4 counterexample: in the scenario of the claim the session already
reports the win during tick 129, so the first win is not after exactly
130 ticks.  The tick-129 update starts at `(690, 300)`, which the
inclusive `Home.contains` test accepts (690 = 700 - 20/2). -/
theorem c4_win_at_129 : (c4Iter 129).won = true := by
  rw [c4_tick129]

/-- C4 (amended): with Home at `(700, 300)` of size 20, the player
starting at `(50, 300)` with speed 5 and the waypoint active at
`(700, 300)`, no win is reported during the first 128 ticks and the win
is first reported on tick 129 = ceil(640/5) + 1, when the update begins
with the player on the inclusive Home boundary x = 690. -/
theorem c4_first_win_tick :
    (∀ k : ℕ, k ≤ 128 → (c4Iter k).won = false) ∧
      (c4Iter 129).won = true := by
  constructor
  · intro k hk
    rw [c4_closed_form k hk]
  · rw [c4_tick129]

/-- C4 witness: the amended statement evaluated at tick 0 and tick
129. -/
theorem c4_first_win_tick_app :
    (c4Iter 0).won = false ∧ (c4Iter 129).won = true :=
  ⟨c4_first_win_tick.1 0 (by norm_num), c4_first_win_tick.2⟩

/-- C6: `ChasingEnemy.update` signals Lose and leaves the enemy in
place exactly when the Euclidean distance to the player is below the
enemy size; otherwise no Lose is signalled, the enemy moves exactly 3
world units, and for a nonzero separation the step is the 3-unit
multiple of the unit vector toward the player, i.e. 3 units along
`atan2(py - ey, px - ex)`. -/
theorem chasingUpdate_charact (size ex ey px py : ℝ) :
    (sdist px py ex ey < size →
      chasingUpdate size ex ey px py = ⟨ex, ey, true⟩) ∧
    (¬ sdist px py ex ey < size →
      (chasingUpdate size ex ey px py).lose = false ∧
        sdist (chasingUpdate size ex ey px py).x
          (chasingUpdate size ex ey px py).y ex ey = 3 ∧
        (sdist px py ex ey ≠ 0 →
          (chasingUpdate size ex ey px py).x =
            ex + 3 / sdist px py ex ey * (px - ex) ∧
          (chasingUpdate size ex ey px py).y =
            ey + 3 / sdist px py ex ey * (py - ey))) := by
  constructor
  · intro hlt
    simp only [chasingUpdate, if_pos hlt]
  · intro hge
    simp only [chasingUpdate, if_neg hge]
    by_cases hd : sdist px py ex ey = 0
    · simp only [if_pos hd]
      refine ⟨trivial, ?_, fun hne => absurd hd hne⟩
      unfold sdist
      rw [show (ex + 3 * 1 - ex) ^ 2 + (ey + 3 * 0 - ey) ^ 2 = 3 ^ 2 by ring,
        Real.sqrt_sq (by norm_num)]
    · simp only [if_neg hd]
      have hdpos : 0 < sdist px py ex ey :=
        lt_of_le_of_ne (sdist_nonneg px py ex ey) (Ne.symm hd)
      refine ⟨trivial, ?_, fun _ => ⟨by ring, by ring⟩⟩
      set d := sdist px py ex ey with hdd
      unfold sdist
      rw [show ex + 3 * ((px - ex) / d) - ex = 3 / d * (px - ex) by ring,
        show ey + 3 * ((py - ey) / d) - ey = 3 / d * (py - ey) by ring,
        sqrt_scale]
      have hsd : Real.sqrt ((px - ex) ^ 2 + (py - ey) ^ 2) = d := by
        rw [hdd]
        rfl
      rw [hsd, abs_div, abs_of_pos hdpos, show |(3:ℝ)| = 3 by norm_num]
      exact div_mul_cancel₀ _ (ne_of_gt hdpos)

/-- C6 witness: a ChasingEnemy at `(200, 200)` with size 20 and the
player at `(205, 205)` is at distance `sqrt 50 < 20` and signals Lose
on its first update without moving. -/
theorem chasingUpdate_scenario :
    chasingUpdate 20 200 200 205 205 = ⟨200, 200, true⟩ :=
  (chasingUpdate_charact 20 200 200 205 205).1 (by
    have h50 : sdist 205 205 200 200 = Real.sqrt 50 := by
      unfold sdist
      norm_num
    have h20 : Real.sqrt 400 = 20 := sqrt_of_sq 400 20 (by norm_num) (by norm_num)
    rw [h50]
    calc Real.sqrt 50 < Real.sqrt 400 := Real.sqrt_lt_sqrt (by norm_num) (by norm_num)
      _ = 20 := h20)

/-- C7: in a hit-free `RandomEnemy.update` the enemy moves 3 units
along the stored angle (the displacement has length exactly 3), then
the angle is reflected to `pi - angle` when the new x leaves
`[0, screen_width]` and the possibly-reflected angle is negated when
the new y leaves `[0, screen_height]`, so both reflections can combine
in one tick; the constructor stores the literal 45 as the angle. -/
theorem randomUpdate_charact (w h : ℕ) (size px py : ℝ) (s : RState)
    (hno : ¬ hitsPlayer s.x s.y size px py) :
    (randomUpdate w h size px py s).2 = false ∧
      (randomUpdate w h size px py s).1.x = s.x + 3 * Real.cos s.angle ∧
      (randomUpdate w h size px py s).1.y = s.y + 3 * Real.sin s.angle ∧
      sdist (s.x + 3 * Real.cos s.angle) (s.y + 3 * Real.sin s.angle)
        s.x s.y = 3 ∧
      (randomUpdate w h size px py s).1.angle =
        (if s.y + 3 * Real.sin s.angle < 0 ∨
            s.y + 3 * Real.sin s.angle > (h:ℝ) then (-1:ℝ) else 1) *
        (if s.x + 3 * Real.cos s.angle < 0 ∨
            s.x + 3 * Real.cos s.angle > (w:ℝ) then Real.pi - s.angle
         else s.angle) ∧
      randomInitAngle = 45 := by
  have hstep : sdist (s.x + 3 * Real.cos s.angle)
      (s.y + 3 * Real.sin s.angle) s.x s.y = 3 := by
    unfold sdist
    rw [show (s.x + 3 * Real.cos s.angle - s.x) ^ 2 +
        (s.y + 3 * Real.sin s.angle - s.y) ^ 2 =
        3 ^ 2 * (Real.cos s.angle ^ 2 + Real.sin s.angle ^ 2) by ring,
      Real.cos_sq_add_sin_sq, mul_one, Real.sqrt_sq (by norm_num)]
  simp only [randomUpdate, if_neg hno]
  refine ⟨trivial, trivial, trivial, hstep, ?_, rfl⟩
  by_cases hy : s.y + 3 * Real.sin s.angle < 0 ∨
      s.y + 3 * Real.sin s.angle > (h:ℝ)
  · rw [if_pos hy, if_pos hy]
    by_cases hx : s.x + 3 * Real.cos s.angle < 0 ∨
        s.x + 3 * Real.cos s.angle > (w:ℝ)
    · rw [if_pos hx]
      ring
    · rw [if_neg hx]
      ring
  · rw [if_neg hy, if_neg hy]
    by_cases hx : s.x + 3 * Real.cos s.angle < 0 ∨
        s.x + 3 * Real.cos s.angle > (w:ℝ)
    · rw [if_pos hx]
      ring
    · rw [if_neg hx]
      ring

/-- C7 witness: the scenario of the claim.  A RandomEnemy with angle 0
at x = screen_width + 1 (screen 100 by 100, y in bounds, player far
away) has angle pi after its next update: it moves to x = 104 > 100 and
the x reflection gives `pi - 0`. -/
theorem randomUpdate_scenario :
    (randomUpdate 100 100 20 1000 1000 ⟨101, 50, 0⟩).1.angle = Real.pi ∧
      (randomUpdate 100 100 20 1000 1000 ⟨101, 50, 0⟩).2 = false := by
  have hno : ¬ hitsPlayer 101 50 20 1000 1000 := by
    unfold hitsPlayer
    norm_num
  have h := randomUpdate_charact 100 100 20 1000 1000 ⟨101, 50, 0⟩ hno
  refine ⟨?_, h.1⟩
  have hangle := h.2.2.2.2.1
  rw [hangle]
  norm_num [Real.sin_zero, Real.cos_zero]

/-- C8: the FencingEnemy patrol.  The corner list is computed at
construction from the Home position, offset by 50 each way; the phase
counter stays in {0, 1, 2, 3} across every update; and in a hit-free
update each phase moves 2 units in its direction and advances (wrapping
from 3 to 0) exactly on reaching its corner coordinate. -/
theorem fencingUpdate_charact (hx hy size px py : ℝ) (s : FState) :
    fencingCorners hx hy =
      [(hx - 50, hy - 50), (hx + 50, hy - 50),
       (hx + 50, hy + 50), (hx - 50, hy + 50)] ∧
    (s.phase < 4 → (fencingUpdate hx hy size px py s).1.phase < 4) ∧
    (¬ hitsPlayer s.x s.y size px py →
      (s.phase = 0 → fencingUpdate hx hy size px py s =
        (⟨s.x + 2, s.y, if s.x + 2 ≥ hx + 50 then 1 else 0⟩, false)) ∧
      (s.phase = 1 → fencingUpdate hx hy size px py s =
        (⟨s.x, s.y + 2, if s.y + 2 ≥ hy + 50 then 2 else 1⟩, false)) ∧
      (s.phase = 2 → fencingUpdate hx hy size px py s =
        (⟨s.x - 2, s.y, if s.x - 2 ≤ hx - 50 then 3 else 2⟩, false)) ∧
      (s.phase = 3 → fencingUpdate hx hy size px py s =
        (⟨s.x, s.y - 2, if s.y - 2 ≤ hy - 50 then 0 else 3⟩, false))) := by
  refine ⟨rfl, ?_, ?_⟩
  · intro h4
    unfold fencingUpdate
    split_ifs <;> dsimp only <;> try split_ifs
    all_goals omega
  · intro hno
    refine ⟨?_, ?_, ?_, ?_⟩
    · intro h0
      unfold fencingUpdate
      rw [if_neg hno, if_pos h0, h0]
      simp [fencingCorners]
    · intro h1
      have hne0 : ¬ s.phase = 0 := by omega
      unfold fencingUpdate
      rw [if_neg hno, if_neg hne0, if_pos h1, h1]
      simp [fencingCorners]
    · intro h2
      have hne0 : ¬ s.phase = 0 := by omega
      have hne1 : ¬ s.phase = 1 := by omega
      unfold fencingUpdate
      rw [if_neg hno, if_neg hne0, if_neg hne1, if_pos h2, h2]
      simp [fencingCorners]
    · intro h3
      have hne0 : ¬ s.phase = 0 := by omega
      have hne1 : ¬ s.phase = 1 := by omega
      have hne2 : ¬ s.phase = 2 := by omega
      unfold fencingUpdate
      rw [if_neg hno, if_neg hne0, if_neg hne1, if_neg hne2, if_pos h3, h3]
      simp [fencingCorners]

/-- C8 witness: a phase-0 FencingEnemy around Home `(0, 0)` at
`(48, -50)` (player far away) moves to the patrol-box right edge
x = 50 and advances to phase 1; the phase stays below 4. -/
theorem fencingUpdate_app :
    fencingUpdate 0 0 20 1000 1000 ⟨48, -50, 0⟩ = (⟨50, -50, 1⟩, false) ∧
      (fencingUpdate 0 0 20 1000 1000 ⟨48, -50, 0⟩).1.phase < 4 := by
  have hno : ¬ hitsPlayer 48 (-50) 20 1000 1000 := by
    unfold hitsPlayer
    norm_num
  have h := fencingUpdate_charact 0 0 20 1000 1000 ⟨48, -50, 0⟩
  constructor
  · have h0 := (h.2.2 hno).1 rfl
    rw [h0]
    norm_num
  · exact h.2.1 (by norm_num)

/-- C9: in a hit-free update of the gate-guard enemy the position is
always the plain 3-unit step along the stored angle (never clamped to
the gate region, and of length exactly 3), then the angle reflects to
`pi - angle` exactly when the new x is below
`screen_width - screen_width // 4` or above `screen_width`, and the
possibly-reflected angle is negated exactly when the new y is below
`screen_height // 3` or above `screen_height - screen_height // 3`,
with `//` the integer division the source applies to the int screen
dimensions. -/
theorem gateUpdate_charact (w h : ℕ) (size px py : ℝ) (s : RState)
    (hno : ¬ hitsPlayer s.x s.y size px py) :
    (gateUpdate w h size px py s).2 = false ∧
      (gateUpdate w h size px py s).1.x = s.x + 3 * Real.cos s.angle ∧
      (gateUpdate w h size px py s).1.y = s.y + 3 * Real.sin s.angle ∧
      sdist (s.x + 3 * Real.cos s.angle) (s.y + 3 * Real.sin s.angle)
        s.x s.y = 3 ∧
      (gateUpdate w h size px py s).1.angle =
        (if s.y + 3 * Real.sin s.angle < ((h / 3 : ℕ) : ℝ) ∨
            s.y + 3 * Real.sin s.angle > ((h - h / 3 : ℕ) : ℝ) then (-1:ℝ)
         else 1) *
        (if s.x + 3 * Real.cos s.angle < ((w - w / 4 : ℕ) : ℝ) ∨
            s.x + 3 * Real.cos s.angle > (w:ℝ) then Real.pi - s.angle
         else s.angle) := by
  have hstep : sdist (s.x + 3 * Real.cos s.angle)
      (s.y + 3 * Real.sin s.angle) s.x s.y = 3 := by
    unfold sdist
    rw [show (s.x + 3 * Real.cos s.angle - s.x) ^ 2 +
        (s.y + 3 * Real.sin s.angle - s.y) ^ 2 =
        3 ^ 2 * (Real.cos s.angle ^ 2 + Real.sin s.angle ^ 2) by ring,
      Real.cos_sq_add_sin_sq, mul_one, Real.sqrt_sq (by norm_num)]
  simp only [gateUpdate, if_neg hno]
  refine ⟨trivial, trivial, trivial, hstep, ?_⟩
  by_cases hyc : s.y + 3 * Real.sin s.angle < ((h / 3 : ℕ) : ℝ) ∨
      s.y + 3 * Real.sin s.angle > ((h - h / 3 : ℕ) : ℝ)
  · rw [if_pos hyc, if_pos hyc]
    by_cases hxc : s.x + 3 * Real.cos s.angle < ((w - w / 4 : ℕ) : ℝ) ∨
        s.x + 3 * Real.cos s.angle > (w:ℝ)
    · rw [if_pos hxc]
      ring
    · rw [if_neg hxc]
      ring
  · rw [if_neg hyc, if_neg hyc]
    by_cases hxc : s.x + 3 * Real.cos s.angle < ((w - w / 4 : ℕ) : ℝ) ∨
        s.x + 3 * Real.cos s.angle > (w:ℝ)
    · rw [if_pos hxc]
      ring
    · rw [if_neg hxc]
      ring

/-- C9 witness: with a 400 by 300 screen the x threshold is
`400 - 400 // 4 = 300`; a gate-guard enemy with angle 0 at `(10, 150)`
(player far away) moves to x = 13 < 300, so the angle reflects to pi,
while y = 150 stays inside `[300 // 3, 300 - 300 // 3] = [100, 200]`
and no negation applies; no Lose is signalled. -/
theorem gateUpdate_scenario :
    (gateUpdate 400 300 20 1000 1000 ⟨10, 150, 0⟩).1.angle = Real.pi ∧
      (gateUpdate 400 300 20 1000 1000 ⟨10, 150, 0⟩).2 = false := by
  have hno : ¬ hitsPlayer 10 150 20 1000 1000 := by
    unfold hitsPlayer
    norm_num
  have h := gateUpdate_charact 400 300 20 1000 1000 ⟨10, 150, 0⟩ hno
  refine ⟨?_, h.1⟩
  have hangle := h.2.2.2.2
  rw [hangle]
  norm_num [Real.sin_zero, Real.cos_zero]

end
